import Mathlib

/-!
Verification of the `lchat` line editor and render loop.

Sources: `src/lchat.c` (render/event loop, file and bell plumbing) and
`src/slackline.h` (the line-edit engine's data model).  The engine's
implementation file `slackline.c` is not among the sources, so the engine
operations (`sl_keystroke`, `sl_reset`, …) are modelled from the spec's
description of the engine (spec §4.1); the loop's accesses to the engine
state are modelled from the spec where `lchat.c` refers to engine fields
(`sl->len`, `sl->cur`) that `src/slackline.h` does not declare.

Bytes are modelled as `Nat` values (the program only moves bytes around and
compares them; no arithmetic overflows occur).  The buffer `buf` of a
`Slackline` is the list of the `blen` live bytes of the C buffer, so the
byte length `blen` is `buf.length`.
-/

namespace LChat

/-- The escape-sequence progress state, from `enum esc_seq` in
`src/slackline.h` (`ESC_NONE`, `ESC`, `ESC_BRACKET`). -/
inductive EscSeq
  | NONE
  | ESC
  | BRACKET
deriving DecidableEq

/-- The engine state, from `struct slackline` in `src/slackline.h`.
`buf` is the list of live bytes (so the C field `blen` is `buf.length`,
exposed below as `Slackline.blen`); `bcur`/`rcur`/`rlen` are the byte
cursor, rune cursor and rune length fields; `esc` the escape state; `ubuf`
the pending UTF-8 assembly buffer (C fields `ubuf`/`ubuf_len`). -/
structure Slackline where
  buf : List Nat
  bcur : Nat
  rcur : Nat
  rlen : Nat
  esc : EscSeq
  ubuf : List Nat
deriving DecidableEq

/-- The byte length of the current line (C field `blen`). -/
def Slackline.blen (sl : Slackline) : Nat := sl.buf.length

/-- Modelled from the spec: `sl_init` (slackline.c is not in the sources) —
a fresh buffer with all lengths zero, escape state idle, nothing pending. -/
def sl_init : Slackline := ⟨[], 0, 0, 0, .NONE, []⟩

/-- Modelled from the spec: `sl_reset` — sets all lengths and cursor
positions to zero and the escape state to idle (storage reuse is invisible
at this level of abstraction, so the result is the fresh state). -/
def sl_reset (_sl : Slackline) : Slackline := sl_init

/-- Modelled from the spec: the byte length of a UTF-8 sequence implied by
its leading byte's high bits — 1 for ASCII, else the count implied by the
leading byte's tag.  Bytes that are not valid leading bytes are given
length 1 (they are inserted as lone bytes, bounding damage from a corrupt
stream as the spec prescribes). -/
def utf8_len (b : Nat) : Nat :=
  if b < 128 then 1
  else if b < 192 then 1
  else if b < 224 then 2
  else if b < 240 then 3
  else if b < 248 then 4
  else 1

/-- Modelled from the spec: walking backward from byte position `p` to the
start of the preceding codepoint — step over continuation bytes
(`10xxxxxx`, i.e. 128–191) to the first non-continuation byte. -/
def prevBoundary (bs : List Nat) : Nat → Nat
  | 0 => 0
  | p + 1 => if 128 ≤ bs.getD p 0 ∧ bs.getD p 0 < 192 then prevBoundary bs p else p

/-- Modelled from the spec: the byte position one codepoint to the right of
byte position `p` (used by the cursor-right escape command). -/
def nextBoundary (bs : List Nat) (p : Nat) : Nat := p + utf8_len (bs.getD p 0)

/-- Modelled from the spec: splicing a completed codepoint's bytes into the
buffer at the byte cursor, advancing the byte cursor by the codepoint's
byte length and both rune counters by one, and clearing the pending
assembly buffer. -/
def sl_insert (sl : Slackline) (cp : List Nat) : Slackline :=
  { sl with
    buf := sl.buf.take sl.bcur ++ cp ++ sl.buf.drop sl.bcur
    bcur := sl.bcur + cp.length
    rcur := sl.rcur + 1
    rlen := sl.rlen + 1
    ubuf := [] }

/-- Modelled from the spec: backspace — a no-op with the rune cursor at the
start of the line, otherwise remove the codepoint immediately left of the
cursor (walk back to its start, close the byte gap, decrement the byte
cursor accordingly and both rune counters by one). -/
def sl_backspace (sl : Slackline) : Slackline :=
  if sl.rcur = 0 then sl
  else
    let q := prevBoundary sl.buf sl.bcur
    { sl with
      buf := sl.buf.take q ++ sl.buf.drop sl.bcur
      bcur := q
      rcur := sl.rcur - 1
      rlen := sl.rlen - 1 }

/-- Modelled from the spec: the command byte following the two-byte escape
introducer.  The minimal recognized set (cursor right `C` = 67, cursor
left `D` = 68) moves the rune cursor by one, clamped, with the byte cursor
landing on a codepoint boundary; unrecognized codes are absorbed with no
mutation.  The escape state returns to idle in every case. -/
def sl_esc_cmd (sl : Slackline) (key : Nat) : Slackline :=
  let sl0 : Slackline := { sl with esc := .NONE }
  if key = 67 then
    if sl0.rcur < sl0.rlen then
      { sl0 with rcur := sl0.rcur + 1, bcur := nextBoundary sl0.buf sl0.bcur }
    else sl0
  else if key = 68 then
    if 0 < sl0.rcur then
      { sl0 with rcur := sl0.rcur - 1, bcur := prevBoundary sl0.buf sl0.bcur }
    else sl0
  else sl0

/-- Modelled from the spec: accumulating one byte of a UTF-8 codepoint.  A
byte that is not a continuation byte while an assembly is pending aborts
the pending assembly and restarts with the byte as a new leading byte;
when the assembled length reaches the length implied by the leading byte,
the codepoint is spliced into the buffer, otherwise it stays pending. -/
def sl_utf8_feed (sl : Slackline) (key : Nat) : Slackline :=
  let ub := if sl.ubuf = [] ∨ (128 ≤ key ∧ key < 192) then sl.ubuf ++ [key] else [key]
  if utf8_len (ub.headD 0) ≤ ub.length then sl_insert sl ub
  else { sl with ubuf := ub }

/-- Modelled from the spec: `sl_keystroke` — escape dispatch first (escape
byte 27 starts a sequence, `[` = 91 after it reaches the bracket state,
any other byte after the introducer aborts to a literal insert, and in the
bracket state the byte is a command code); with the escape state idle,
backspace bytes (127 and 8) delete backward and every other byte feeds the
UTF-8 assembly. -/
def sl_keystroke (sl : Slackline) (key : Nat) : Slackline :=
  match sl.esc with
  | .ESC =>
      if key = 91 then { sl with esc := .BRACKET }
      else sl_utf8_feed { sl with esc := .NONE } key
  | .BRACKET => sl_esc_cmd sl key
  | .NONE =>
      if key = 27 then { sl with esc := .ESC }
      else if key = 127 ∨ key = 8 then sl_backspace sl
      else sl_utf8_feed sl key

/-- Feeding a byte sequence to the engine one byte at a time. -/
def sl_feed (sl : Slackline) (bytes : List Nat) : Slackline :=
  bytes.foldl sl_keystroke sl

/-!
## The render/event loop (`main` in `src/lchat.c`)

One iteration of the `for (;;)` loop (lchat.c lines 274–340) is modelled as
a function of the iteration's poll outcome.  I/O performed during the
iteration is recorded as a trace of `Out` events; the iteration either
continues with a new engine state and overhang counter, or exits the
process (`break` → `return EXIT_SUCCESS`, or `errx(EXIT_FAILURE, …)`).
`read(2)` failing with -1 and `write(2)`/`open(2)` faults are operating
system errors outside this model (all of them call `err` and die without
further program logic).
-/

/-- One observable output action of a loop iteration. -/
inductive Out
  /-- `open(file, O_WRONLY|O_APPEND)` on the outbound file (lchat.c:111). -/
  | fopen
  /-- `write(fd, …)` of the given bytes to the outbound file (lchat.c:117). -/
  | fwrite (bs : List Nat)
  /-- `close(fd)` of the outbound file (lchat.c:120). -/
  | fclose
  /-- the carriage-return-and-clear-line sequence (lchat.c:279, 284). -/
  | termCRClear
  /-- the cursor-up-by-`k`-rows sequence (lchat.c:280). -/
  | termUp (k : Nat)
  /-- the feed bytes written verbatim to the terminal (lchat.c:311). -/
  | termFeed (bs : List Nat)
  /-- the audible alert byte (lchat.c:319). -/
  | bell
  /-- the prompt text (lchat.c:323). -/
  | termPrompt
  /-- the buffer bytes shown on the prompt line (lchat.c:324). -/
  | termBuf (bs : List Nat)
  /-- the newline forcing the cursor off a full last column (lchat.c:332). -/
  | termNl
  /-- the lone carriage return before repositioning (lchat.c:335). -/
  | termCR
  /-- the forward-cursor-move-by-`k`-columns sequence (lchat.c:338). -/
  | termFwd (k : Nat)
deriving DecidableEq

/-- The outcome of one loop iteration. -/
inductive StepResult
  /-- the loop continues with a new engine state and overhang counter. -/
  | next (sl : Slackline) (lover : Nat) (out : List Out)
  /-- `break` out of the loop, then `return EXIT_SUCCESS` (lchat.c:301, 341). -/
  | exitSuccess (out : List Out)
  /-- `errx(EXIT_FAILURE, …)` (lchat.c:308). -/
  | exitFailure (out : List Out)
deriving DecidableEq

/-- The loop's configuration, fixed across an iteration: the
`empty_line` and `bell_flag` flags, whether `.bellmatch` passes the
`access(…, R_OK)` check, the external `grep -qf` process (a predicate on
the bytes piped to it), the prompt length, the platform's `BUFSIZ`, and
the terminal column count `winsize.ws_col`. -/
structure Config where
  empty_line : Bool
  bell_flag : Bool
  bell_readable : Bool
  grep : List Nat → Bool
  prompt_len : Nat
  bufsiz : Nat
  ws_col : Nat

/-- What `poll(2)` reported for one iteration: the keyboard byte read by
`getchar()` when stdin was readable, whether the feed descriptor signalled
`POLLHUP`, and the bytes a ready feed descriptor's `read` returned. -/
structure PollEv where
  kbd : Option Nat
  hup : Bool
  feed : Option (List Nat)

/-- The bytes of a C string: everything before the first NUL. -/
def cstr (bs : List Nat) : List Nat := bs.takeWhile (fun b => !(b == 0))

/-- `bell_match` (lchat.c:83–104): if the pattern file fails the
readability check, report a match; otherwise the match is whatever the
external `grep -qf` exits with on the bytes piped to it. -/
def bell_match (readable : Bool) (grep : List Nat → Bool) (str : List Nat) : Bool :=
  if readable = false then true else grep str

/-- `line_output` (lchat.c:106–122): open the outbound file for appending,
replace the NUL terminator with a newline, write the `len + 1` bytes, and
close the file — as a trace, an open, a write of the buffer bytes followed
by one newline, and a close. -/
def line_output (sl : Slackline) : List Out :=
  [Out.fopen, Out.fwrite (sl.buf ++ [10]), Out.fclose]

/-- The C string handed to `bell_match` after a feed read of `data`
(lchat.c:315): the terminator lands at index `n - 1` when the read filled
the buffer (`n = BUFSIZ`) and at index `n` otherwise, and string reading
stops at the first NUL. -/
def feed_str (bufsiz : Nat) (data : List Nat) : List Nat :=
  cstr (data.take (if data.length = bufsiz then data.length - 1 else data.length))

/-- The feed-input block (lchat.c:304–320): a zero-byte read is fatal
(`errx`, modelled as `none`); otherwise the bytes are written to the
terminal and the bell rings exactly when alerting is on and `bell_match`
accepts the received string. -/
def feed_step (bufsiz : Nat) (bell_flag bell_readable : Bool) (grep : List Nat → Bool)
    (data : List Nat) : Option (List Out) :=
  if data.length = 0 then none
  else some ([Out.termFeed data] ++
    (if bell_flag = true ∧ bell_match bell_readable grep (feed_str bufsiz data) = true
     then [Out.bell] else []))

/-- The redraw preamble (lchat.c:277–284): undo the previous overhang if
any, then carriage-return-and-clear the line. -/
def preamble (lover : Nat) : List Out :=
  (if 0 < lover then [Out.termCRClear, Out.termUp lover] else []) ++ [Out.termCRClear]

/-- The cursor repositioning at the end of the redraw (lchat.c:334–339).
Modelled from the spec: the guard `sl->cur < sl->len` refers to fields not
declared in `src/slackline.h`; per the spec the reposition happens when
the rune cursor is not at the end of the buffer, emitting a carriage
return and then a forward move of `runeCursor + promptLength` columns,
skipped when that count is zero. -/
def reposition (prompt_len : Nat) (sl : Slackline) : List Out :=
  if sl.rcur < sl.rlen then
    Out.termCR :: (if 0 < sl.rcur + prompt_len then [Out.termFwd (sl.rcur + prompt_len)] else [])
  else []

/-- The prompt redraw (lchat.c:322–339): show prompt and buffer (`fputs`
stops at a NUL), recompute the overhang as `(prompt_len + blen) / ws_col`
(the spec fixes `sl->len` as the byte length), emit a newline when the
combined length is a nonzero exact multiple of the column count, and
reposition the cursor.  Returns the new overhang and the trace. -/
def redraw (prompt_len ws_col : Nat) (sl : Slackline) : Nat × List Out :=
  ((prompt_len + sl.blen) / ws_col,
   [Out.termPrompt, Out.termBuf (cstr sl.buf)] ++
   (if 0 < prompt_len + sl.blen ∧ (prompt_len + sl.blen) % ws_col = 0
    then [Out.termNl] else []) ++
   reposition prompt_len sl)

/-- The part of an iteration after the keyboard block (lchat.c:299–339):
`POLLHUP` on the feed breaks out of the loop (the `return EXIT_SUCCESS`
after it), then feed input is handled, then the redraw runs. -/
def after_kbd (cfg : Config) (sl : Slackline) (acc : List Out) (ev : PollEv) : StepResult :=
  if ev.hup = true then .exitSuccess acc
  else
    match ev.feed with
    | none =>
        let r := redraw cfg.prompt_len cfg.ws_col sl
        .next sl r.1 (acc ++ r.2)
    | some data =>
        match feed_step cfg.bufsiz cfg.bell_flag cfg.bell_readable cfg.grep data with
        | none => .exitFailure acc
        | some fops =>
            let r := redraw cfg.prompt_len cfg.ws_col sl
            .next sl r.1 (acc ++ fops ++ r.2)

/-- One full iteration of the loop (lchat.c:274–340).  On a keyboard byte
of 13 with an empty buffer and empty submit disallowed, `goto out` jumps
to the redraw label *inside* the loop body (lchat.c:321), skipping the
hangup check and the feed block; on a committing 13 the line is written
out, the buffer reset, and — the commit branch not being exclusive —
`sl_keystroke` still consumes the byte; any other byte goes to
`sl_keystroke` directly. -/
def iteration (cfg : Config) (sl : Slackline) (lover : Nat) (ev : PollEv) : StepResult :=
  let acc := preamble lover
  match ev.kbd with
  | none => after_kbd cfg sl acc ev
  | some c =>
      if c = 13 then
        if sl.blen = 0 ∧ cfg.empty_line = false then
          let r := redraw cfg.prompt_len cfg.ws_col sl
          .next sl r.1 (acc ++ r.2)
        else
          after_kbd cfg (sl_keystroke (sl_reset sl) 13) (acc ++ line_output sl) ev
      else after_kbd cfg (sl_keystroke sl c) acc ev

/-- The output trace of a step result. -/
def outs : StepResult → List Out
  | .next _ _ o => o
  | .exitSuccess o => o
  | .exitFailure o => o

/-- Whether an output event touches the outbound file. -/
def isFileOp : Out → Bool
  | .fopen => true
  | .fwrite _ => true
  | .fclose => true
  | _ => false

/-- Whether a step result leaves the loop. -/
def isExit : StepResult → Bool
  | .next _ _ _ => false
  | _ => true

/-- Whether a step result is a failure exit. -/
def isFailureExit : StepResult → Bool
  | .exitFailure _ => true
  | _ => false

/-!
## Startup configuration reading (`read_file_line`, lchat.c:54–81)

The file system outcome is abstracted as `none` (the `access(file, R_OK)`
check fails) or `some bytes` (the file's contents).
-/

/-- The outcome of `read_file_line`. -/
inductive ReadLine
  /-- `access` failed, `NULL` returned: the caller applies its default. -/
  | fallback
  /-- the first line, its newline stripped. -/
  | line (bs : List Nat)
  /-- `err(EXIT_FAILURE, …)`: `fgets` on a readable file with no line
  (an empty file) — or a failing `fopen`/`fclose` — kills the process. -/
  | fatal
deriving DecidableEq

/-- `read_file_line` (lchat.c:54–81): unreadable files yield `NULL`
(fallback); a readable but empty file makes `fgets` return `NULL`, which
is `err(EXIT_FAILURE)`; otherwise the first line with its newline
stripped. -/
def read_file_line (file : Option (List Nat)) : ReadLine :=
  match file with
  | none => .fallback
  | some bs =>
      if bs = [] then .fatal
      else .line (bs.takeWhile (fun b => !(b == 10)))

/-- The prompt at startup (lchat.c:146–150): `read_file_line(".prompt")`,
defaulting to `">"` (byte 62) when that returns `NULL`; a fatal
`read_file_line` is a process exit (`Except.error`). -/
def startup_prompt (f : Option (List Nat)) : Except Unit (List Nat) :=
  match read_file_line f with
  | .fallback => .ok [62]
  | .line l => .ok l
  | .fatal => .error ()

/-- The title at startup (lchat.c:147, 218–223): `read_file_line(".title")`;
`NULL` leaves the title unset (no title sequence is printed). -/
def startup_title (f : Option (List Nat)) : Except Unit (Option (List Nat)) :=
  match read_file_line f with
  | .fallback => .ok none
  | .line l => .ok (some l)
  | .fatal => .error ()

/-!
## Claim-side notions

`is_utf8_cp` renders the spec's "complete, well-formed UTF-8 codepoint"
(the encodings U+0000–U+10FFFF minus overlong forms, coarsely: it admits
the surrogate range, which only widens the hypotheses of the theorems
below).  `is_plain_cp` further excludes the control bytes the engine
intercepts (escape 27, backspace 127 and 8). -/
def is_utf8_cp (cp : List Nat) : Bool :=
  match cp with
  | [b] => decide (b < 128)
  | [b, c] => decide (194 ≤ b ∧ b ≤ 223 ∧ 128 ≤ c ∧ c < 192)
  | [b, c, d] => decide (224 ≤ b ∧ b ≤ 239 ∧ 128 ≤ c ∧ c < 192 ∧ 128 ≤ d ∧ d < 192)
  | [b, c, d, e] =>
      decide (240 ≤ b ∧ b ≤ 244 ∧ 128 ≤ c ∧ c < 192 ∧ 128 ≤ d ∧ d < 192 ∧
        128 ≤ e ∧ e < 192)
  | _ => false

/-- A well-formed codepoint whose bytes the engine treats as text: its
leading byte is none of the intercepted control bytes 27, 127, 8. -/
def is_plain_cp (cp : List Nat) : Bool :=
  is_utf8_cp cp && !(cp.headD 0 == 27) && !(cp.headD 0 == 127) && !(cp.headD 0 == 8)

/-!
## Engine lemmas
-/

theorem utf8_len_one {b : Nat} (h : b < 128) : utf8_len b = 1 := by
  unfold utf8_len; rw [if_pos h]

theorem utf8_len_two {b : Nat} (h1 : 192 ≤ b) (h2 : b < 224) : utf8_len b = 2 := by
  unfold utf8_len
  rw [if_neg (by omega), if_neg (by omega), if_pos h2]

theorem utf8_len_three {b : Nat} (h1 : 224 ≤ b) (h2 : b < 240) : utf8_len b = 3 := by
  unfold utf8_len
  rw [if_neg (by omega), if_neg (by omega), if_neg (by omega), if_pos h2]

theorem utf8_len_four {b : Nat} (h1 : 240 ≤ b) (h2 : b < 248) : utf8_len b = 4 := by
  unfold utf8_len
  rw [if_neg (by omega), if_neg (by omega), if_neg (by omega), if_neg (by omega),
    if_pos h2]

theorem utf8_len_lead {b : Nat} (h1 : 192 ≤ b) (h2 : b < 248) : 2 ≤ utf8_len b := by
  unfold utf8_len; split_ifs <;> omega

theorem headD_append_of_ne_nil {l : List Nat} (m : List Nat) (h : l ≠ []) (d : Nat) :
    (l ++ m).headD d = l.headD d := by
  cases l with
  | nil => exact absurd rfl h
  | cons a t => rfl

@[simp] theorem sl_insert_buf_length (sl : Slackline) (cp : List Nat) :
    (sl_insert sl cp).buf.length = sl.buf.length + cp.length := by
  simp [sl_insert]; omega

theorem sl_insert_blen (sl : Slackline) (cp : List Nat) :
    (sl_insert sl cp).blen = sl.blen + cp.length := by
  simp [Slackline.blen]

@[simp] theorem sl_insert_rlen (sl : Slackline) (cp : List Nat) :
    (sl_insert sl cp).rlen = sl.rlen + 1 := rfl

@[simp] theorem sl_insert_esc (sl : Slackline) (cp : List Nat) :
    (sl_insert sl cp).esc = sl.esc := rfl

@[simp] theorem sl_insert_ubuf (sl : Slackline) (cp : List Nat) :
    (sl_insert sl cp).ubuf = [] := rfl

/-- An ASCII byte that is none of the intercepted control bytes inserts a
one-byte codepoint. -/
theorem keystroke_ascii (sl : Slackline) (b : Nat)
    (he : sl.esc = .NONE) (hu : sl.ubuf = []) (hb : b < 128)
    (h27 : b ≠ 27) (h127 : b ≠ 127) (h8 : b ≠ 8) :
    sl_keystroke sl b = sl_insert sl [b] := by
  obtain ⟨buf, bcur, rcur, rlen, esc, ubuf⟩ := sl
  dsimp only at he hu
  subst he; subst hu
  simp [sl_keystroke, sl_utf8_feed, h27, h127, h8, utf8_len_one hb]

/-- A multi-byte leading byte starts a pending assembly. -/
theorem keystroke_lead (sl : Slackline) (b : Nat)
    (he : sl.esc = .NONE) (hu : sl.ubuf = []) (hb1 : 192 ≤ b) (hb2 : b < 248) :
    sl_keystroke sl b = { sl with ubuf := [b] } := by
  obtain ⟨buf, bcur, rcur, rlen, esc, ubuf⟩ := sl
  dsimp only at he hu
  subst he; subst hu
  have h2 := utf8_len_lead hb1 hb2
  simp [sl_keystroke, sl_utf8_feed, show b ≠ 27 by omega, show b ≠ 127 by omega,
    show b ≠ 8 by omega, show ¬ utf8_len b ≤ 1 by omega]

/-- A continuation byte that does not yet complete the pending codepoint
extends the assembly buffer. -/
theorem keystroke_cont_pending (sl : Slackline) (c : Nat)
    (he : sl.esc = .NONE) (hne : sl.ubuf ≠ [])
    (hc1 : 128 ≤ c) (hc2 : c < 192)
    (hlen : sl.ubuf.length + 1 < utf8_len (sl.ubuf.headD 0)) :
    sl_keystroke sl c = { sl with ubuf := sl.ubuf ++ [c] } := by
  obtain ⟨buf, bcur, rcur, rlen, esc, ubuf⟩ := sl
  dsimp only at he hne hlen
  subst he
  obtain _ | ⟨u0, ut⟩ := ubuf
  · exact absurd rfl hne
  simp only [List.headD_cons, List.length_cons] at hlen
  simp only [sl_keystroke]
  rw [if_neg (by omega), if_neg (by omega)]
  simp only [sl_utf8_feed]
  rw [if_pos (Or.inr ⟨hc1, hc2⟩)]
  simp only [List.cons_append, List.headD_cons, List.length_cons, List.length_append,
    List.length_nil]
  rw [if_neg (by omega)]

/-- A continuation byte that completes the pending codepoint splices it
into the buffer. -/
theorem keystroke_cont_complete (sl : Slackline) (c : Nat)
    (he : sl.esc = .NONE) (hne : sl.ubuf ≠ [])
    (hc1 : 128 ≤ c) (hc2 : c < 192)
    (hlen : utf8_len (sl.ubuf.headD 0) ≤ sl.ubuf.length + 1) :
    sl_keystroke sl c = sl_insert sl (sl.ubuf ++ [c]) := by
  obtain ⟨buf, bcur, rcur, rlen, esc, ubuf⟩ := sl
  dsimp only at he hne hlen
  subst he
  obtain _ | ⟨u0, ut⟩ := ubuf
  · exact absurd rfl hne
  simp only [List.headD_cons, List.length_cons] at hlen
  simp only [sl_keystroke]
  rw [if_neg (by omega), if_neg (by omega)]
  simp only [sl_utf8_feed]
  rw [if_pos (Or.inr ⟨hc1, hc2⟩)]
  simp only [List.cons_append, List.headD_cons, List.length_cons, List.length_append,
    List.length_nil]
  rw [if_pos (by omega)]

/-- Feeding one plain well-formed codepoint byte-by-byte, starting with no
escape sequence and no pending assembly, adds exactly its bytes to the
buffer, one rune to the rune count, and returns to the same idle state. -/
theorem sl_feed_cp (sl : Slackline) (cp : List Nat)
    (hw : is_plain_cp cp = true) (he : sl.esc = .NONE) (hu : sl.ubuf = []) :
    (sl_feed sl cp).blen = sl.blen + cp.length ∧
    (sl_feed sl cp).rlen = sl.rlen + 1 ∧
    (sl_feed sl cp).esc = .NONE ∧
    (sl_feed sl cp).ubuf = [] := by
  rcases cp with _ | ⟨b, _ | ⟨c, _ | ⟨d, _ | ⟨e, _ | rest⟩⟩⟩⟩
  · simp [is_plain_cp, is_utf8_cp] at hw
  · -- one byte: direct insert
    simp only [is_plain_cp, is_utf8_cp, Bool.and_eq_true, Bool.not_eq_true',
      beq_eq_false_iff_ne, decide_eq_true_eq, List.headD] at hw
    obtain ⟨⟨⟨hb, h27⟩, h127⟩, h8⟩ := hw
    have hk := keystroke_ascii sl b he hu hb h27 h127 h8
    simp [sl_feed, hk, he, Slackline.blen]
  · -- two bytes
    simp only [is_plain_cp, is_utf8_cp, Bool.and_eq_true, Bool.not_eq_true',
      beq_eq_false_iff_ne, decide_eq_true_eq, List.headD] at hw
    obtain ⟨⟨⟨⟨hb1, hb2, hc1, hc2⟩, _⟩, _⟩, _⟩ := hw
    have h1 := keystroke_lead sl b he hu (by omega) (by omega)
    have h2 := keystroke_cont_complete { sl with ubuf := [b] } c
      (by simpa using he) (by simp) hc1 hc2
      (by simp [utf8_len_two (show 192 ≤ b by omega) (show b < 224 by omega)])
    simp only [sl_feed, List.foldl_cons, List.foldl_nil] at h1 h2 ⊢
    rw [h1, h2]
    simp [he, Slackline.blen]
  · -- three bytes
    simp only [is_plain_cp, is_utf8_cp, Bool.and_eq_true, Bool.not_eq_true',
      beq_eq_false_iff_ne, decide_eq_true_eq, List.headD] at hw
    obtain ⟨⟨⟨⟨hb1, hb2, hc1, hc2, hd1, hd2⟩, _⟩, _⟩, _⟩ := hw
    have hl := utf8_len_three (show 224 ≤ b by omega) (show b < 240 by omega)
    have h1 := keystroke_lead sl b he hu (by omega) (by omega)
    have h2 := keystroke_cont_pending { sl with ubuf := [b] } c
      (by simpa using he) (by simp) hc1 hc2 (by simp [hl])
    have h3 := keystroke_cont_complete { sl with ubuf := [b, c] } d
      (by simpa using he) (by simp) hd1 hd2 (by simp [hl])
    simp only [sl_feed, List.foldl_cons, List.foldl_nil] at h1 h2 h3 ⊢
    rw [h1, h2]
    simp only [List.cons_append, List.nil_append] at h3 ⊢
    rw [h3]
    simp [he, Slackline.blen]
  · -- four bytes
    simp only [is_plain_cp, is_utf8_cp, Bool.and_eq_true, Bool.not_eq_true',
      beq_eq_false_iff_ne, decide_eq_true_eq, List.headD] at hw
    obtain ⟨⟨⟨⟨hb1, hb2, hc1, hc2, hd1, hd2, he1, he2⟩, _⟩, _⟩, _⟩ := hw
    have hl := utf8_len_four (show 240 ≤ b by omega) (show b < 248 by omega)
    have h1 := keystroke_lead sl b he hu (by omega) (by omega)
    have h2 := keystroke_cont_pending { sl with ubuf := [b] } c
      (by simpa using he) (by simp) hc1 hc2 (by simp [hl])
    have h3 := keystroke_cont_pending { sl with ubuf := [b, c] } d
      (by simpa using he) (by simp) hd1 hd2 (by simp [hl])
    have h4 := keystroke_cont_complete { sl with ubuf := [b, c, d] } e
      (by simpa using he) (by simp) he1 he2 (by simp [hl])
    simp only [sl_feed, List.foldl_cons, List.foldl_nil] at h1 h2 h3 h4 ⊢
    rw [h1, h2]
    simp only [List.cons_append, List.nil_append] at h3 h4 ⊢
    rw [h3, h4]
    simp [he, Slackline.blen]
  · simp [is_plain_cp, is_utf8_cp] at hw

theorem sl_feed_append (sl : Slackline) (l₁ l₂ : List Nat) :
    sl_feed sl (l₁ ++ l₂) = sl_feed (sl_feed sl l₁) l₂ := by
  simp [sl_feed]

/-- Feeding a sequence of plain well-formed codepoints byte-by-byte adds
one rune per codepoint and one byte per encoded byte. -/
theorem sl_feed_cps (cps : List (List Nat)) (sl : Slackline)
    (hw : ∀ cp ∈ cps, is_plain_cp cp = true) (he : sl.esc = .NONE) (hu : sl.ubuf = []) :
    (sl_feed sl cps.flatten).blen = sl.blen + cps.flatten.length ∧
    (sl_feed sl cps.flatten).rlen = sl.rlen + cps.length ∧
    (sl_feed sl cps.flatten).esc = .NONE ∧
    (sl_feed sl cps.flatten).ubuf = [] := by
  induction cps generalizing sl with
  | nil => simp [sl_feed, he, hu]
  | cons cp rest ih =>
      have hcp := sl_feed_cp sl cp (hw cp (by simp)) he hu
      have hrest := ih (sl_feed sl cp) (fun x hx => hw x (by simp [hx])) hcp.2.2.1 hcp.2.2.2
      rw [List.flatten_cons, sl_feed_append]
      refine ⟨?_, ?_, hrest.2.2.1, hrest.2.2.2⟩
      · rw [hrest.1, hcp.1]
        simp only [List.length_append]
        omega
      · rw [hrest.2.1, hcp.2.1]
        simp only [List.length_cons]
        omega

/-!
## Loop lemmas

Branch lemmas unfolding one iteration along each path of the control flow,
and classification lemmas for the output traces each block can produce.
-/

theorem iteration_commit (cfg : Config) (sl : Slackline) (lover : Nat)
    (hup : Bool) (feed : Option (List Nat))
    (hne : ¬(sl.blen = 0 ∧ cfg.empty_line = false)) :
    iteration cfg sl lover ⟨some 13, hup, feed⟩ =
      after_kbd cfg (sl_keystroke (sl_reset sl) 13)
        (preamble lover ++ line_output sl) ⟨some 13, hup, feed⟩ := by
  simp only [iteration]
  rw [if_true, if_neg hne]

theorem iteration_quit (cfg : Config) (sl : Slackline) (lover : Nat)
    (hup : Bool) (feed : Option (List Nat))
    (hb : sl.blen = 0) (he : cfg.empty_line = false) :
    iteration cfg sl lover ⟨some 13, hup, feed⟩ =
      .next sl (redraw cfg.prompt_len cfg.ws_col sl).1
        (preamble lover ++ (redraw cfg.prompt_len cfg.ws_col sl).2) := by
  simp only [iteration]
  rw [if_true, if_pos ⟨hb, he⟩]

theorem iteration_key (cfg : Config) (sl : Slackline) (lover : Nat) (c : Nat)
    (hup : Bool) (feed : Option (List Nat)) (hc : c ≠ 13) :
    iteration cfg sl lover ⟨some c, hup, feed⟩ =
      after_kbd cfg (sl_keystroke sl c) (preamble lover) ⟨some c, hup, feed⟩ := by
  simp only [iteration]
  rw [if_neg hc]

theorem iteration_nokey (cfg : Config) (sl : Slackline) (lover : Nat)
    (hup : Bool) (feed : Option (List Nat)) :
    iteration cfg sl lover ⟨none, hup, feed⟩ =
      after_kbd cfg sl (preamble lover) ⟨none, hup, feed⟩ := by
  simp only [iteration]

theorem after_kbd_hup (cfg : Config) (sl : Slackline) (acc : List Out)
    (kbd : Option Nat) (feed : Option (List Nat)) :
    after_kbd cfg sl acc ⟨kbd, true, feed⟩ = .exitSuccess acc := by
  simp [after_kbd]

theorem after_kbd_nofeed (cfg : Config) (sl : Slackline) (acc : List Out)
    (kbd : Option Nat) :
    after_kbd cfg sl acc ⟨kbd, false, none⟩ =
      .next sl (redraw cfg.prompt_len cfg.ws_col sl).1
        (acc ++ (redraw cfg.prompt_len cfg.ws_col sl).2) := by
  simp [after_kbd]

theorem after_kbd_zero_read (cfg : Config) (sl : Slackline) (acc : List Out)
    (kbd : Option Nat) :
    after_kbd cfg sl acc ⟨kbd, false, some []⟩ = .exitFailure acc := by
  simp [after_kbd, feed_step]

/-- The trace of a nonempty feed read, as used by `after_kbd`. -/
def feed_ops (cfg : Config) (data : List Nat) : List Out :=
  [Out.termFeed data] ++
    (if cfg.bell_flag = true ∧
        bell_match cfg.bell_readable cfg.grep (feed_str cfg.bufsiz data) = true
     then [Out.bell] else [])

theorem feed_step_eq (cfg : Config) (data : List Nat) (hn : data ≠ []) :
    feed_step cfg.bufsiz cfg.bell_flag cfg.bell_readable cfg.grep data =
      some (feed_ops cfg data) := by
  simp [feed_step, feed_ops, hn]

theorem after_kbd_feed (cfg : Config) (sl : Slackline) (acc : List Out)
    (kbd : Option Nat) (data : List Nat) (hn : data ≠ []) :
    after_kbd cfg sl acc ⟨kbd, false, some data⟩ =
      .next sl (redraw cfg.prompt_len cfg.ws_col sl).1
        (acc ++ feed_ops cfg data ++ (redraw cfg.prompt_len cfg.ws_col sl).2) := by
  simp only [after_kbd]
  rw [if_neg (by simp)]
  rw [feed_step_eq cfg data hn]

theorem mem_preamble (l : Nat) (o : Out) (h : o ∈ preamble l) :
    o = Out.termCRClear ∨ o = Out.termUp l := by
  unfold preamble at h
  split at h <;> simp_all
  tauto

theorem mem_line_output (sl : Slackline) (o : Out) (h : o ∈ line_output sl) :
    o = Out.fopen ∨ o = Out.fwrite (sl.buf ++ [10]) ∨ o = Out.fclose := by
  unfold line_output at h
  simp_all

theorem mem_feed_ops (cfg : Config) (data : List Nat) (o : Out)
    (h : o ∈ feed_ops cfg data) :
    o = Out.termFeed data ∨ o = Out.bell := by
  unfold feed_ops at h
  split at h <;> simp_all

theorem mem_redraw (p w : Nat) (sl : Slackline) (o : Out)
    (h : o ∈ (redraw p w sl).2) :
    o = Out.termPrompt ∨ o = Out.termBuf (cstr sl.buf) ∨ o = Out.termNl ∨
    o = Out.termCR ∨ o = Out.termFwd (sl.rcur + p) := by
  simp only [redraw, reposition] at h
  repeat' split at h
  all_goals simp_all
  all_goals tauto

theorem filter_fileOp_preamble (l : Nat) : (preamble l).filter isFileOp = [] := by
  unfold preamble
  split <;> rfl

theorem filter_fileOp_redraw (p w : Nat) (sl : Slackline) :
    ((redraw p w sl).2).filter isFileOp = [] := by
  rw [List.filter_eq_nil_iff]
  intro o ho
  rcases mem_redraw p w sl o ho with h | h | h | h | h <;> simp [h, isFileOp]

theorem filter_fileOp_feed_ops (cfg : Config) (data : List Nat) :
    (feed_ops cfg data).filter isFileOp = [] := by
  rw [List.filter_eq_nil_iff]
  intro o ho
  rcases mem_feed_ops cfg data o ho with h | h <;> simp [h, isFileOp]

theorem filter_fileOp_line_output (sl : Slackline) :
    (line_output sl).filter isFileOp = line_output sl := rfl

/-- The engine state a continuing iteration hands to the next one. -/
def nextSl : StepResult → Option Slackline
  | .next sl _ _ => some sl
  | _ => none

/-- A concrete configuration for witnesses: empty submit disallowed,
alerting on, no readable pattern file, prompt of one column, `BUFSIZ` 1024,
an 80-column terminal. -/
def cfg0 : Config :=
  { empty_line := false, bell_flag := true, bell_readable := false,
    grep := fun _ => false, prompt_len := 1, bufsiz := 1024, ws_col := 80 }

/-- A concrete engine state: the line `hi` fully typed, cursor at the end. -/
def sl_hi : Slackline := ⟨[104, 105], 2, 2, 2, .NONE, []⟩

/-- A concrete engine state: the line `ab` with the cursor between the two
runes. -/
def sl_mid : Slackline := ⟨[97, 98], 1, 1, 2, .NONE, []⟩

/-!
## Claims
-/

/-- C1: in every iteration that reads the carriage return 13 while the
buffer is nonempty or empty submit is enabled, the outbound-file
operations of the whole iteration are exactly one open, one write of the
buffer's current bytes followed by a single newline, and one close, and
the buffer is reset to the empty state. -/
theorem commit_appends_line_and_resets (cfg : Config) (sl : Slackline) (lover : Nat)
    (ev : PollEv) (hk : ev.kbd = some 13)
    (hne : ¬(sl.blen = 0 ∧ cfg.empty_line = false)) :
    (outs (iteration cfg sl lover ev)).filter isFileOp =
      [Out.fopen, Out.fwrite (sl.buf ++ [10]), Out.fclose] ∧
    sl_reset sl = sl_init := by
  obtain ⟨kbd, hup, feed⟩ := ev
  dsimp only at hk
  subst hk
  refine ⟨?_, rfl⟩
  rw [iteration_commit cfg sl lover hup feed hne]
  cases hup with
  | true =>
      rw [after_kbd_hup]
      simp only [outs, List.filter_append, filter_fileOp_preamble,
        filter_fileOp_line_output, List.nil_append, line_output]
      rfl
  | false =>
      cases feed with
      | none =>
          rw [after_kbd_nofeed]
          simp only [outs, List.filter_append, filter_fileOp_preamble,
            filter_fileOp_line_output, filter_fileOp_redraw, List.nil_append,
            List.append_nil, line_output]
          rfl
      | some data =>
          rcases eq_or_ne data [] with hd | hd
          · subst hd
            rw [after_kbd_zero_read]
            simp only [outs, List.filter_append, filter_fileOp_preamble,
              filter_fileOp_line_output, List.nil_append, line_output]
            rfl
          · rw [after_kbd_feed cfg _ _ _ data hd]
            simp only [outs, List.filter_append, filter_fileOp_preamble,
              filter_fileOp_line_output, filter_fileOp_feed_ops, filter_fileOp_redraw,
              List.nil_append, List.append_nil, line_output]
            rfl

theorem commit_appends_line_and_resets_witness :
    (outs (iteration cfg0 sl_hi 0 ⟨some 13, false, none⟩)).filter isFileOp =
      [Out.fopen, Out.fwrite (sl_hi.buf ++ [10]), Out.fclose] ∧
    sl_reset sl_hi = sl_init :=
  commit_appends_line_and_resets cfg0 sl_hi 0 ⟨some 13, false, none⟩ rfl (by decide)

/-- C2 counterexample: with an empty buffer, empty submit disallowed and a
carriage return read, the iteration does not terminate the loop: `goto
out` jumps to the `out:` label *inside* the loop body (lchat.c:321), so
the result is a continuing `next` state — even when the feed side has a
hangup or data pending, both of which the jump skips. -/
theorem empty_commit_no_exit_cex :
    isExit (iteration cfg0 sl_init 0 ⟨some 13, false, none⟩) = false ∧
    isExit (iteration cfg0 sl_init 0 ⟨some 13, true, some [104]⟩) = false :=
  ⟨rfl, rfl⟩

/-- C2 (amended): on a carriage return read with the buffer empty and
empty submit disallowed, the iteration writes nothing to the outbound
file and skips the hangup check and the feed handling, jumping straight
to the redraw — and the loop continues rather than terminating. -/
theorem empty_commit_skips_to_redraw (cfg : Config) (sl : Slackline) (lover : Nat)
    (ev : PollEv) (hk : ev.kbd = some 13)
    (hb : sl.blen = 0) (he : cfg.empty_line = false) :
    iteration cfg sl lover ev =
      .next sl (redraw cfg.prompt_len cfg.ws_col sl).1
        (preamble lover ++ (redraw cfg.prompt_len cfg.ws_col sl).2) ∧
    isExit (iteration cfg sl lover ev) = false ∧
    (outs (iteration cfg sl lover ev)).filter isFileOp = [] := by
  obtain ⟨kbd, hup, feed⟩ := ev
  dsimp only at hk
  subst hk
  have h := iteration_quit cfg sl lover hup feed hb he
  refine ⟨h, by rw [h]; rfl, ?_⟩
  rw [h]
  simp only [outs, List.filter_append, filter_fileOp_preamble, filter_fileOp_redraw,
    List.nil_append]

theorem empty_commit_skips_to_redraw_witness :
    iteration cfg0 sl_init 0 ⟨some 13, false, none⟩ =
      .next sl_init (redraw cfg0.prompt_len cfg0.ws_col sl_init).1
        (preamble 0 ++ (redraw cfg0.prompt_len cfg0.ws_col sl_init).2) ∧
    isExit (iteration cfg0 sl_init 0 ⟨some 13, false, none⟩) = false ∧
    (outs (iteration cfg0 sl_init 0 ⟨some 13, false, none⟩)).filter isFileOp = [] :=
  empty_commit_skips_to_redraw cfg0 sl_init 0 ⟨some 13, false, none⟩ rfl rfl rfl

/-- C10: after a committing carriage return the loop also hands the byte
13 to the engine's keystroke on the freshly reset buffer (the commit
branch has no `else`), and the engine processes it as an ordinary insert:
the continuing state's buffer holds exactly the byte 13 and one rune. -/
theorem commit_feeds_cr_to_engine (cfg : Config) (sl : Slackline) (lover : Nat)
    (ev : PollEv) (hk : ev.kbd = some 13) (hh : ev.hup = false)
    (hf : ev.feed ≠ some []) (hne : ¬(sl.blen = 0 ∧ cfg.empty_line = false)) :
    nextSl (iteration cfg sl lover ev) = some (sl_keystroke (sl_reset sl) 13) ∧
    (sl_keystroke (sl_reset sl) 13).buf = [13] ∧
    (sl_keystroke (sl_reset sl) 13).rlen = 1 := by
  obtain ⟨kbd, hup, feed⟩ := ev
  dsimp only at hk hh hf
  subst hk
  subst hh
  refine ⟨?_, rfl, rfl⟩
  rw [iteration_commit cfg sl lover false feed hne]
  cases feed with
  | none =>
      rw [after_kbd_nofeed]
      rfl
  | some data =>
      have hd : data ≠ [] := fun h => hf (by rw [h])
      rw [after_kbd_feed cfg _ _ _ data hd]
      rfl

theorem commit_feeds_cr_to_engine_witness :
    nextSl (iteration cfg0 sl_hi 0 ⟨some 13, false, none⟩) =
      some (sl_keystroke (sl_reset sl_hi) 13) ∧
    (sl_keystroke (sl_reset sl_hi) 13).buf = [13] ∧
    (sl_keystroke (sl_reset sl_hi) 13).rlen = 1 :=
  commit_feeds_cr_to_engine cfg0 sl_hi 0 ⟨some 13, false, none⟩ rfl rfl
    (by decide) (by decide)

/-- C4 counterexample: at a feed hangup the iteration is the `break` that
falls through to `return EXIT_SUCCESS` — the exit status is success, not
the failure the claim requires. -/
theorem feed_hangup_success_cex :
    iteration cfg0 sl_init 0 ⟨none, true, none⟩ = .exitSuccess [Out.termCRClear] ∧
    isFailureExit (iteration cfg0 sl_init 0 ⟨none, true, none⟩) = false :=
  ⟨rfl, rfl⟩

/-- C4 (amended): a feed hangup terminates the loop with the success exit
status (the `break` reaches `return EXIT_SUCCESS`), while a feed read of
zero bytes terminates the process with the failure status (`errx`). -/
theorem feed_end_exit_status (cfg : Config) (sl : Slackline) (lover : Nat)
    (ev : PollEv) (hk : ev.kbd = none) :
    (ev.hup = true → iteration cfg sl lover ev = .exitSuccess (preamble lover)) ∧
    (ev.hup = false → ev.feed = some [] →
      iteration cfg sl lover ev = .exitFailure (preamble lover)) := by
  obtain ⟨kbd, hup, feed⟩ := ev
  dsimp only at hk
  subst hk
  constructor
  · intro h
    dsimp only at h
    subst h
    rw [iteration_nokey, after_kbd_hup]
  · intro h hf
    dsimp only at h hf
    subst h
    subst hf
    rw [iteration_nokey, after_kbd_zero_read]

theorem feed_end_exit_status_witness :
    iteration cfg0 sl_init 0 ⟨none, true, none⟩ = .exitSuccess (preamble 0) ∧
    iteration cfg0 sl_init 0 ⟨none, false, some []⟩ = .exitFailure (preamble 0) :=
  ⟨(feed_end_exit_status cfg0 sl_init 0 ⟨none, true, none⟩ rfl).1 rfl,
   (feed_end_exit_status cfg0 sl_init 0 ⟨none, false, some []⟩ rfl).2 rfl rfl⟩

/-!
## Redraw-position infrastructure

In every continuing iteration the output trace ends with the redraw of the
continuing state, and nothing before the redraw can contribute the
newline, carriage-return or forward-move events the redraw is responsible
for.
-/

/-- No newline, carriage-return or forward-move event occurs in the list
(those are produced only by the final redraw). -/
def no_tail (l : List Out) : Prop :=
  Out.termNl ∉ l ∧ Out.termCR ∉ l ∧ ∀ k, Out.termFwd k ∉ l

theorem no_tail_preamble (l : Nat) : no_tail (preamble l) := by
  refine ⟨?_, ?_, fun k => ?_⟩ <;>
    · intro h
      rcases mem_preamble l _ h with h1 | h1 <;> simp at h1

theorem no_tail_line_output (sl : Slackline) : no_tail (line_output sl) := by
  refine ⟨?_, ?_, fun k => ?_⟩ <;>
    · intro h
      rcases mem_line_output sl _ h with h1 | h1 | h1 <;> simp at h1

theorem no_tail_feed_ops (cfg : Config) (data : List Nat) :
    no_tail (feed_ops cfg data) := by
  refine ⟨?_, ?_, fun k => ?_⟩ <;>
    · intro h
      rcases mem_feed_ops cfg data _ h with h1 | h1 <;> simp at h1

theorem no_tail_append {l1 l2 : List Out} (h1 : no_tail l1) (h2 : no_tail l2) :
    no_tail (l1 ++ l2) := by
  obtain ⟨a1, b1, c1⟩ := h1
  obtain ⟨a2, b2, c2⟩ := h2
  refine ⟨?_, ?_, fun k => ?_⟩ <;> rw [List.mem_append]
  · rintro (h | h)
    exacts [a1 h, a2 h]
  · rintro (h | h)
    exacts [b1 h, b2 h]
  · rintro (h | h)
    exacts [c1 k h, c2 k h]

/-- A continuing `after_kbd` ends in the redraw of the state it carried,
its stored overhang is the redraw's, and everything before the redraw is
tail-free. -/
theorem after_kbd_next_form (cfg : Config) (sl : Slackline) (acc0 : List Out)
    (ev : PollEv) (sl2 : Slackline) (lo : Nat) (out : List Out)
    (hn0 : no_tail acc0)
    (h : after_kbd cfg sl acc0 ev = .next sl2 lo out) :
    ∃ acc : List Out,
      out = acc ++ (redraw cfg.prompt_len cfg.ws_col sl2).2 ∧
      lo = (redraw cfg.prompt_len cfg.ws_col sl2).1 ∧ no_tail acc := by
  obtain ⟨kbd, hup, feed⟩ := ev
  cases hup with
  | true =>
      rw [after_kbd_hup] at h
      exact StepResult.noConfusion h
  | false =>
      cases feed with
      | none =>
          rw [after_kbd_nofeed] at h
          injection h with h1 h2 h3
          subst h1; subst h2; subst h3
          exact ⟨acc0, rfl, rfl, hn0⟩
      | some data =>
          rcases eq_or_ne data [] with hd | hd
          · subst hd
            rw [after_kbd_zero_read] at h
            exact StepResult.noConfusion h
          · rw [after_kbd_feed cfg sl acc0 kbd data hd] at h
            injection h with h1 h2 h3
            subst h1; subst h2; subst h3
            exact ⟨acc0 ++ feed_ops cfg data, rfl, rfl,
              no_tail_append hn0 (no_tail_feed_ops cfg data)⟩

/-- Every continuing iteration ends in the redraw of the continuing state;
the stored overhang is the redraw's; the prefix is tail-free. -/
theorem iteration_next_form (cfg : Config) (sl : Slackline) (lover : Nat)
    (ev : PollEv) (sl2 : Slackline) (lo : Nat) (out : List Out)
    (h : iteration cfg sl lover ev = .next sl2 lo out) :
    ∃ acc : List Out,
      out = acc ++ (redraw cfg.prompt_len cfg.ws_col sl2).2 ∧
      lo = (redraw cfg.prompt_len cfg.ws_col sl2).1 ∧ no_tail acc := by
  obtain ⟨kbd, hup, feed⟩ := ev
  cases kbd with
  | none =>
      rw [iteration_nokey] at h
      exact after_kbd_next_form _ _ _ _ _ _ _ (no_tail_preamble lover) h
  | some c =>
      rcases eq_or_ne c 13 with hc | hc
      · subst hc
        by_cases hq : sl.blen = 0 ∧ cfg.empty_line = false
        · rw [iteration_quit cfg sl lover hup feed hq.1 hq.2] at h
          injection h with h1 h2 h3
          subst h1; subst h2; subst h3
          exact ⟨preamble lover, rfl, rfl, no_tail_preamble lover⟩
        · rw [iteration_commit cfg sl lover hup feed hq] at h
          exact after_kbd_next_form _ _ _ _ _ _ _
            (no_tail_append (no_tail_preamble lover) (no_tail_line_output sl)) h
      · rw [iteration_key cfg sl lover c hup feed hc] at h
        exact after_kbd_next_form _ _ _ _ _ _ _ (no_tail_preamble lover) h

theorem termNl_not_mem_reposition (p : Nat) (sl : Slackline) :
    Out.termNl ∉ reposition p sl := by
  unfold reposition
  split
  · split <;> simp
  · simp

theorem termNl_mem_redraw (p w : Nat) (sl : Slackline) :
    Out.termNl ∈ (redraw p w sl).2 ↔
      (0 < p + sl.blen ∧ (p + sl.blen) % w = 0) := by
  by_cases hA : 0 < p + sl.blen ∧ (p + sl.blen) % w = 0
  · simp only [redraw, if_pos hA]
    simp [hA]
  · simp only [redraw, if_neg hA]
    simp [termNl_not_mem_reposition p sl]
    intro h hB
    exact hA ⟨by omega, hB⟩

theorem termCR_mem_reposition (p : Nat) (sl : Slackline) :
    Out.termCR ∈ reposition p sl ↔ sl.rcur < sl.rlen := by
  unfold reposition
  split
  · split <;> simp_all
  · simp_all

theorem termFwd_mem_reposition (p : Nat) (sl : Slackline) (k : Nat) :
    Out.termFwd k ∈ reposition p sl ↔
      (sl.rcur < sl.rlen ∧ 0 < sl.rcur + p ∧ k = sl.rcur + p) := by
  unfold reposition
  split
  · split <;> simp_all
  · simp_all

theorem termCR_mem_redraw (p w : Nat) (sl : Slackline) :
    Out.termCR ∈ (redraw p w sl).2 ↔ sl.rcur < sl.rlen := by
  have h1 : Out.termCR ∉ ([Out.termPrompt, Out.termBuf (cstr sl.buf)] ++
      (if 0 < p + sl.blen ∧ (p + sl.blen) % w = 0 then [Out.termNl] else [])) := by
    rw [List.mem_append]
    rintro (h | h)
    · simp at h
    · split at h <;> simp at h
  simp only [redraw, List.mem_append]
  rw [termCR_mem_reposition]
  constructor
  · rintro (h | h)
    · exact absurd (List.mem_append.2 h) h1
    · exact h
  · exact fun h => Or.inr h

theorem termFwd_mem_redraw (p w : Nat) (sl : Slackline) (k : Nat) :
    Out.termFwd k ∈ (redraw p w sl).2 ↔
      (sl.rcur < sl.rlen ∧ 0 < sl.rcur + p ∧ k = sl.rcur + p) := by
  have h1 : Out.termFwd k ∉ ([Out.termPrompt, Out.termBuf (cstr sl.buf)] ++
      (if 0 < p + sl.blen ∧ (p + sl.blen) % w = 0 then [Out.termNl] else [])) := by
    rw [List.mem_append]
    rintro (h | h)
    · simp at h
    · split at h <;> simp at h
  simp only [redraw, List.mem_append]
  rw [termFwd_mem_reposition]
  constructor
  · rintro (h | h)
    · exact absurd (List.mem_append.2 h) h1
    · exact h
  · exact fun h => Or.inr h

/-- C7: every continuing iteration stores the overhang
`(promptLength + byteLen) / columnWidth` for the state it just redrew, and
its trace contains the forced newline exactly when `promptLength + byteLen`
is nonzero and an exact multiple of the column width. -/
theorem loverhang_and_wrap_newline (cfg : Config) (sl : Slackline) (lover : Nat)
    (ev : PollEv) (sl2 : Slackline) (lo : Nat) (out : List Out)
    (_hcol : 0 < cfg.ws_col)
    (h : iteration cfg sl lover ev = .next sl2 lo out) :
    lo = (cfg.prompt_len + sl2.blen) / cfg.ws_col ∧
    (Out.termNl ∈ out ↔
      (0 < cfg.prompt_len + sl2.blen ∧
        (cfg.prompt_len + sl2.blen) % cfg.ws_col = 0)) := by
  obtain ⟨acc, hout, hlo, hnt⟩ := iteration_next_form cfg sl lover ev sl2 lo out h
  subst hout; subst hlo
  refine ⟨rfl, ?_⟩
  rw [List.mem_append, termNl_mem_redraw]
  constructor
  · rintro (hm | hm)
    · exact absurd hm hnt.1
    · exact hm
  · exact fun hm => Or.inr hm

theorem loverhang_and_wrap_newline_witness :
    ((0 : Nat) = (cfg0.prompt_len + sl_hi.blen) / cfg0.ws_col ∧
     (Out.termNl ∈ [Out.termCRClear, Out.termPrompt, Out.termBuf [104, 105]] ↔
       (0 < cfg0.prompt_len + sl_hi.blen ∧
         (cfg0.prompt_len + sl_hi.blen) % cfg0.ws_col = 0))) :=
  loverhang_and_wrap_newline cfg0 sl_hi 0 ⟨none, false, none⟩ sl_hi 0
    [Out.termCRClear, Out.termPrompt, Out.termBuf [104, 105]] (by decide) (by decide)

/-- C8: in every continuing iteration the trace ends with the reposition
block and contains the lone carriage return exactly when the continuing
state's rune cursor is strictly before its rune end; a forward move occurs
exactly when additionally `runeCursor + promptLength` is nonzero, and any
forward move is by exactly `runeCursor + promptLength` columns. -/
theorem cursor_reposition_after_redraw (cfg : Config) (sl : Slackline) (lover : Nat)
    (ev : PollEv) (sl2 : Slackline) (lo : Nat) (out : List Out)
    (h : iteration cfg sl lover ev = .next sl2 lo out) :
    (Out.termCR ∈ out ↔ sl2.rcur < sl2.rlen) ∧
    (∀ k, Out.termFwd k ∈ out ↔
      (sl2.rcur < sl2.rlen ∧ 0 < sl2.rcur + cfg.prompt_len ∧
        k = sl2.rcur + cfg.prompt_len)) ∧
    (∃ pre : List Out, out = pre ++ reposition cfg.prompt_len sl2) := by
  obtain ⟨acc, hout, hlo, hnt⟩ := iteration_next_form cfg sl lover ev sl2 lo out h
  subst hout
  refine ⟨?_, fun k => ?_, ?_⟩
  · rw [List.mem_append, termCR_mem_redraw]
    constructor
    · rintro (hm | hm)
      · exact absurd hm hnt.2.1
      · exact hm
    · exact fun hm => Or.inr hm
  · rw [List.mem_append, termFwd_mem_redraw]
    constructor
    · rintro (hm | hm)
      · exact absurd hm (hnt.2.2 k)
      · exact hm
    · exact fun hm => Or.inr hm
  · refine ⟨acc ++ ([Out.termPrompt, Out.termBuf (cstr sl2.buf)] ++
      (if 0 < cfg.prompt_len + sl2.blen ∧
          (cfg.prompt_len + sl2.blen) % cfg.ws_col = 0
       then [Out.termNl] else [])), ?_⟩
    simp [redraw]

theorem cursor_reposition_after_redraw_witness :
    ((Out.termCR ∈ [Out.termCRClear, Out.termPrompt, Out.termBuf [97, 98],
        Out.termCR, Out.termFwd 2] ↔ sl_mid.rcur < sl_mid.rlen) ∧
     (∀ k, Out.termFwd k ∈ [Out.termCRClear, Out.termPrompt, Out.termBuf [97, 98],
        Out.termCR, Out.termFwd 2] ↔
       (sl_mid.rcur < sl_mid.rlen ∧ 0 < sl_mid.rcur + cfg0.prompt_len ∧
         k = sl_mid.rcur + cfg0.prompt_len)) ∧
     (∃ pre : List Out, [Out.termCRClear, Out.termPrompt, Out.termBuf [97, 98],
        Out.termCR, Out.termFwd 2] = pre ++ reposition cfg0.prompt_len sl_mid)) :=
  cursor_reposition_after_redraw cfg0 sl_mid 0 ⟨none, false, none⟩ sl_mid 0
    [Out.termCRClear, Out.termPrompt, Out.termBuf [97, 98], Out.termCR, Out.termFwd 2]
    (by decide)

/-- C5: with alerting enabled, an iteration handling a nonempty feed read
rings the bell exactly when `bell_match` accepts the received string; and
with no readable pattern file, `bell_match` accepts every string, so every
feed update alerts. -/
theorem bell_exactly_on_match (cfg : Config) (sl : Slackline) (lover : Nat)
    (ev : PollEv) (data : List Nat) (hb : cfg.bell_flag = true)
    (hk : ev.kbd = none) (hh : ev.hup = false) (hf : ev.feed = some data)
    (hn : data ≠ []) :
    (Out.bell ∈ outs (iteration cfg sl lover ev) ↔
      bell_match cfg.bell_readable cfg.grep (feed_str cfg.bufsiz data) = true) ∧
    (∀ g : List Nat → Bool, ∀ s : List Nat, bell_match false g s = true) := by
  obtain ⟨kbd, hup, feed⟩ := ev
  dsimp only at hk hh hf
  subst hk; subst hh; subst hf
  refine ⟨?_, fun g s => rfl⟩
  rw [iteration_nokey, after_kbd_feed cfg sl (preamble lover) none data hn]
  have h1 : Out.bell ∉ preamble lover := by
    intro h
    rcases mem_preamble lover _ h with h2 | h2 <;> simp at h2
  have h2 : Out.bell ∉ (redraw cfg.prompt_len cfg.ws_col sl).2 := by
    intro h
    rcases mem_redraw cfg.prompt_len cfg.ws_col sl _ h with h3 | h3 | h3 | h3 | h3 <;>
      simp at h3
  have h3 : Out.bell ∈ feed_ops cfg data ↔
      (cfg.bell_flag = true ∧
        bell_match cfg.bell_readable cfg.grep (feed_str cfg.bufsiz data) = true) := by
    unfold feed_ops
    split <;> simp_all
  simp only [outs, List.mem_append]
  constructor
  · rintro ((hm | hm) | hm)
    · exact absurd hm h1
    · exact (h3.1 hm).2
    · exact absurd hm h2
  · exact fun hm => Or.inl (Or.inr (h3.2 ⟨hb, hm⟩))

theorem bell_exactly_on_match_witness :
    (Out.bell ∈ outs (iteration cfg0 sl_init 0 ⟨none, false, some [104]⟩) ↔
      bell_match cfg0.bell_readable cfg0.grep (feed_str cfg0.bufsiz [104]) = true) ∧
    (∀ g : List Nat → Bool, ∀ s : List Nat, bell_match false g s = true) :=
  bell_exactly_on_match cfg0 sl_init 0 ⟨none, false, some [104]⟩ [104]
    rfl rfl rfl rfl (by decide)

theorem cstr_of_no_nul (bs : List Nat) (h : ∀ b ∈ bs, b ≠ 0) : cstr bs = bs := by
  induction bs with
  | nil => rfl
  | cons a t ih =>
      have ha : (!(a == 0)) = true := by simpa using h a (by simp)
      have ht := ih (fun b hb => h b (by simp [hb]))
      unfold cstr at ht ⊢
      rw [List.takeWhile_cons, ha, if_pos rfl, ht]

/-- C6 counterexample: a feed read of the two bytes `[0, 65]` — fewer than
`BUFSIZ` (1024 here) — does not hand the predicate "exactly the n bytes
read": `fputs` stops at the interior NUL, so the predicate receives the
empty string. -/
theorem predicate_bytes_cex :
    feed_str 1024 [0, 65] = [] ∧ ([0, 65] : List Nat) ≠ [] ∧
    List.length [0, 65] < 1024 := by decide

/-- C6 (amended): the alert predicate receives the C string assembled in
the read buffer — the longest NUL-free prefix of the `n` bytes read when
`n < BUFSIZ` (exactly the `n` bytes whenever none of them is NUL), and of
the first `n - 1` bytes when the read fills the buffer exactly (the final
byte is replaced by the terminator). -/
theorem predicate_receives_cstring (bufsiz : Nat) (data : List Nat)
    (hnul : ∀ b ∈ data, b ≠ 0) :
    (data.length < bufsiz → feed_str bufsiz data = data) ∧
    (data.length = bufsiz → feed_str bufsiz data = data.take (bufsiz - 1)) := by
  constructor
  · intro h
    unfold feed_str
    rw [if_neg (by omega), List.take_length]
    exact cstr_of_no_nul data hnul
  · intro h
    unfold feed_str
    rw [if_pos h, h]
    exact cstr_of_no_nul _ (fun b hb => hnul b (List.take_subset _ _ hb))

theorem predicate_receives_cstring_witness :
    feed_str 1024 [104, 105] = [104, 105] ∧ feed_str 2 [104, 105] = [104] :=
  ⟨(predicate_receives_cstring 1024 [104, 105] (by decide)).1 (by decide),
   (predicate_receives_cstring 2 [104, 105] (by decide)).2 (by decide)⟩

/-- C9 counterexample: a readable but empty `.prompt` file is a
configuration fault that *does* cause an error exit: `fgets` returns NULL
and `read_file_line` dies with `err(EXIT_FAILURE)` instead of falling back
to the built-in default. -/
theorem config_read_fatal_cex :
    startup_prompt (some []) = .error () ∧ read_file_line (some []) = .fatal :=
  ⟨rfl, rfl⟩

/-- C9 (amended): an absent or unreadable prompt/title file falls back
silently to the built-in default (prompt `">"`, no title) without any
error exit, and a readable file with a first line is used as-is — but a
readable file yielding no line (an empty file) is a fatal error exit. -/
theorem config_read_fallback (bs : List Nat) (hbs : bs ≠ []) :
    read_file_line none = .fallback ∧
    startup_prompt none = .ok [62] ∧
    startup_title none = .ok none ∧
    startup_prompt (some bs) = .ok (bs.takeWhile (fun b => !(b == 10))) ∧
    read_file_line (some []) = .fatal := by
  refine ⟨rfl, rfl, rfl, ?_, rfl⟩
  simp [startup_prompt, read_file_line, hbs]

theorem config_read_fallback_witness :
    read_file_line none = .fallback ∧
    startup_prompt none = .ok [62] ∧
    startup_title none = .ok none ∧
    startup_prompt (some [104, 10, 105]) =
      .ok (List.takeWhile (fun b => !(b == 10)) [104, 10, 105]) ∧
    read_file_line (some []) = .fatal :=
  config_read_fallback [104, 10, 105] (by decide)

/-- C3 counterexample: the escape character U+001B is a complete,
well-formed one-byte UTF-8 codepoint, but feeding it to a fresh buffer
moves the engine into the escape state without inserting anything:
`rlen` stays 0 where the claim requires the number of codepoints, 1. -/
theorem utf8_feed_counts_cex :
    is_utf8_cp [27] = true ∧
    (sl_feed sl_init (List.flatten [[27]])).rlen = 0 ∧
    (sl_feed sl_init (List.flatten [[27]])).esc = .ESC ∧
    List.length [[27]] = 1 := by decide

/-- C3 (amended): feeding any finite sequence of complete, well-formed
UTF-8 codepoints whose leading bytes are not the engine's intercepted
control bytes (escape 27, backspace 127 and 8), one byte at a time into a
fresh buffer, leaves the rune length equal to the number of codepoints and
the byte length equal to the total encoded byte length — in particular
"é" = `[195, 169]` yields `rlen = 1` and `blen = 2`. -/
theorem utf8_feed_counts (cps : List (List Nat))
    (hw : ∀ cp ∈ cps, is_plain_cp cp = true) :
    (sl_feed sl_init cps.flatten).rlen = cps.length ∧
    (sl_feed sl_init cps.flatten).blen = cps.flatten.length := by
  have h := sl_feed_cps cps sl_init hw rfl rfl
  exact ⟨by simpa [sl_init] using h.2.1, by simpa [sl_init, Slackline.blen] using h.1⟩

theorem utf8_feed_counts_witness :
    (sl_feed sl_init (List.flatten [[195, 169]])).rlen = 1 ∧
    (sl_feed sl_init (List.flatten [[195, 169]])).blen = 2 := by
  have h := utf8_feed_counts [[195, 169]] (by decide)
  exact ⟨by simpa using h.1, by simpa using h.2⟩

end LChat
